import Mathlib

/-!
Shallow embedding of the Financial Analysis Engine of the Fintech-Advisor
repository (`backend/routes/analysis.js`), together with theorems settling
the spec claims about it.

Modelling conventions:
* JS numbers are modelled as `ℚ` (the engine's arithmetic on well-typed
  inputs is exact decimal arithmetic up to float artifacts);
  `Math.round x` is `⌊x + 1/2⌋`.
* A JS `Date` is modelled as `JSDate` with fields `year` (`getFullYear()`),
  `month` (`getMonth() + 1`) and `sub` (the remaining instant-within-month
  information, as a rational so that comparison of `JSDate`s by the
  lexicographic order on `(year, month, sub)` agrees with JS comparison of
  dates by their millisecond timestamps).
* In `analyzeTargets` dates are used only through millisecond-timestamp
  subtraction, so there `target_date`, `created_at` and the clock reading
  are millisecond timestamps in `ℚ`; a SQL `NULL` `target_date` becomes
  `new Date(null)`, the epoch, i.e. timestamp `0`.
* The `"YYYY-MM"` month keys built by `analyzeSpendingTrends` are modelled
  as the integer `year * 100 + month`; for four-digit years and zero-padded
  months the lexicographic order on the key strings is exactly the integer
  order on these keys.
* The two `new Date()` system-clock reads (lines 96 and 218 of
  `analysis.js`) are modelled as one explicit `Clock` argument carrying the
  month/year view and the millisecond timestamp of the same instant.
-/

namespace FintechAdvisor

/-- JS `Math.round`: round half up, as an integer. -/
def jsRound (q : ℚ) : ℤ := ⌊q + 1 / 2⌋

/-- The engine's 2-decimal boundary rounding, `Math.round(x * 100) / 100`. -/
def round2 (q : ℚ) : ℚ := (jsRound (q * 100) : ℚ) / 100

/-- A JS `Date` value: `year` is `getFullYear()`, `month` is
`getMonth() + 1`, and `sub` carries the rest of the instant (day, time)
so that the lexicographic order on `(year, month, sub)` coincides with the
order of the underlying millisecond timestamps. -/
structure JSDate where
  year : ℤ
  month : ℤ
  sub : ℚ
deriving DecidableEq

/-- Date comparison, as JS compares dates: by timestamp, i.e.
lexicographically on `(year, month, sub)`. -/
def dateLeB (a b : JSDate) : Bool :=
  decide (a.year < b.year ∨ (a.year = b.year ∧
    (a.month < b.month ∨ (a.month = b.month ∧ a.sub ≤ b.sub))))

/-- The smaller of two dates (`Math.min` on timestamps). -/
def dateMin (a b : JSDate) : JSDate := if dateLeB b a then b else a

/-- The larger of two dates (`Math.max` on timestamps). -/
def dateMax (a b : JSDate) : JSDate := if dateLeB a b then b else a

/-- `Math.min(...dates)` over a nonempty list, folded from a first date. -/
def listMinD (d : JSDate) (l : List JSDate) : JSDate := l.foldl dateMin d

/-- `Math.max(...dates)` over a nonempty list, folded from a first date. -/
def listMaxD (d : JSDate) (l : List JSDate) : JSDate := l.foldl dateMax d

/-- A transaction row as the engine reads it: `category` is `Option` since
the column may be `NULL` (the engine substitutes `'Uncategorized'` where it
uses `t.category || 'Uncategorized'`, but compares the raw value in
`analyzeBudgets`). -/
structure Txn where
  date : JSDate
  amount : ℚ
  type : String
  category : Option String
deriving DecidableEq

/-- A target row as the engine reads it. `target_date` is the millisecond
timestamp of `new Date(t.target_date)`, `none` when the column is `NULL`
(in which case the code's `new Date(null)` is the epoch, timestamp `0`);
`created_at` is the timestamp of `new Date(t.created_at)`;
`current_amount` is `none` when `NULL` (the code reads
`t.current_amount || 0`). -/
structure Target where
  target_amount : ℚ
  current_amount : Option ℚ
  target_date : Option ℚ
  created_at : ℚ
deriving DecidableEq

/-- A budget row (joined with its category name) as the engine reads it. -/
structure Budget where
  category_name : String
  amount : ℚ
  month : ℤ
  year : ℤ
deriving DecidableEq

/-- One system-clock reading `new Date()`: its `getMonth() + 1` /
`getFullYear()` view and its millisecond timestamp. -/
structure Clock where
  month : ℤ
  year : ℤ
  ms : ℚ
deriving DecidableEq

/-- `t.current_amount || 0`. -/
def Target.currentAmt (t : Target) : ℚ := t.current_amount.getD 0

/-- Milliseconds per day, the divisor `1000 * 60 * 60 * 24`. -/
def msPerDay : ℚ := 1000 * 60 * 60 * 24

/-- The result object of `analyzeTargets`.  `behindTargets` is an integer:
the code computes it by subtraction, which can go negative. -/
structure TargetAnalysis where
  totalTargets : ℕ
  totalTargetAmount : ℚ
  totalCurrentAmount : ℚ
  overallProgress : ℚ
  completedTargets : ℕ
  onTrackTargets : ℕ
  behindTargets : ℤ
deriving DecidableEq

/-- The body of the `onTrackTargets` filter callback (lines 215-223):
`progress >= min(daysPassed / totalDays, 1) * 0.8`, where a `NULL`
`target_date` is the epoch (`new Date(null)`). `now` is the millisecond
timestamp of the `new Date()` read at line 218. -/
def onTrackPred (now : ℚ) (t : Target) : Bool :=
  let progress := t.currentAmt / t.target_amount
  let targetDate := t.target_date.getD 0
  let totalDays := (targetDate - t.created_at) / msPerDay
  let daysPassed := (now - t.created_at) / msPerDay
  let expectedProgress := min (daysPassed / totalDays) 1
  decide (progress ≥ expectedProgress * 0.8)

/-- `analyzeTargets` (lines 208-234). -/
def analyzeTargets (targets : List Target) (now : ℚ) : TargetAnalysis :=
  let totalTargets := targets.length
  let totalTargetAmount := (targets.map (·.target_amount)).foldl (· + ·) (0 : ℚ)
  let totalCurrentAmount := (targets.map Target.currentAmt).foldl (· + ·) (0 : ℚ)
  let overallProgress :=
    if totalTargetAmount > 0 then totalCurrentAmount / totalTargetAmount * 100 else 0
  let completedTargets :=
    (targets.filter (fun t => decide (t.currentAmt ≥ t.target_amount))).length
  let onTrackTargets := (targets.filter (onTrackPred now)).length
  { totalTargets := totalTargets
    totalTargetAmount := totalTargetAmount
    totalCurrentAmount := totalCurrentAmount
    overallProgress := round2 overallProgress
    completedTargets := completedTargets
    onTrackTargets := onTrackTargets
    behindTargets := (totalTargets : ℤ) - completedTargets - onTrackTargets }

/-- The result object of `analyzeBudgets`.  `budgetUtilization` is an
`Option`: the early return at lines 241-247 does not set the field at all
(it is `undefined` on that path), so `none` models its absence. -/
structure BudgetAnalysis where
  totalBudgets : ℕ
  totalBudgetAmount : ℚ
  totalSpent : ℚ
  overBudget : ℕ
  underBudget : ℕ
  budgetUtilization : Option ℚ
deriving DecidableEq

/-- The per-budget spent amount (lines 253-255 and 260-262): the sum of the
amounts of the transactions whose raw `category` equals the budget's
`category_name` and whose `type` is `'expense'`. -/
def categorySpent (transactions : List Txn) (name : String) : ℚ :=
  ((transactions.filter
      (fun t => t.category == some name && t.type == "expense")).map
    (·.amount)).foldl (· + ·) (0 : ℚ)

/-- `analyzeBudgets` (lines 237-274). -/
def analyzeBudgets (budgets : List Budget) (transactions : List Txn)
    (currentMonth currentYear : ℤ) : BudgetAnalysis :=
  let currentBudgets :=
    budgets.filter (fun b => b.month == currentMonth && b.year == currentYear)
  if currentBudgets.length = 0 then
    { totalBudgets := 0
      totalBudgetAmount := 0
      totalSpent := 0
      overBudget := 0
      underBudget := 0
      budgetUtilization := none }
  else
    let totalBudgetAmount := (currentBudgets.map (·.amount)).foldl (· + ·) (0 : ℚ)
    let totalSpent :=
      currentBudgets.foldl
        (fun sum b => sum + min (categorySpent transactions b.category_name) b.amount) (0 : ℚ)
    let overBudget :=
      (currentBudgets.filter
        (fun b => decide (categorySpent transactions b.category_name > b.amount))).length
    { totalBudgets := currentBudgets.length
      totalBudgetAmount := totalBudgetAmount
      totalSpent := totalSpent
      overBudget := overBudget
      underBudget := currentBudgets.length - overBudget
      budgetUtilization :=
        some (if totalBudgetAmount > 0 then totalSpent / totalBudgetAmount * 100 else 0) }

/-- `calculateMonthlyAverage` (lines 180-192): `0` on an empty list, else
the summed amount divided by
`(latestYear - earliestYear) * 12 + (latestMonth - earliestMonth) + 1`,
where earliest/latest are `Math.min`/`Math.max` over the dates. -/
def calculateMonthlyAverage (transactions : List Txn) : ℚ :=
  match transactions with
  | [] => 0
  | t :: ts =>
    let earliestDate := listMinD t.date (ts.map (·.date))
    let latestDate := listMaxD t.date (ts.map (·.date))
    let monthsDiff : ℤ := (latestDate.year - earliestDate.year) * 12 +
      (latestDate.month - earliestDate.month) + 1
    let totalAmount := ((t :: ts).map (·.amount)).foldl (· + ·) (0 : ℚ)
    totalAmount / (monthsDiff : ℚ)

/-- `t.category || 'Uncategorized'` (line 198): `NULL` and the empty string
are falsy. -/
def categoryLabel (t : Txn) : String :=
  match t.category with
  | none => "Uncategorized"
  | some s => if s = "" then "Uncategorized" else s

/-- One step of JS object accumulation `m[k] = (m[k] || 0) + v` on an
association list in key-insertion order. -/
def bump (m : List (ℤ × ℚ)) (k : ℤ) (v : ℚ) : List (ℤ × ℚ) :=
  match m with
  | [] => [(k, v)]
  | (k', v') :: rest => if k' = k then (k', v' + v) :: rest else (k', v') :: bump rest k v

/-- Same accumulation step for string-keyed objects (category breakdown). -/
def bumpS (m : List (String × ℚ)) (k : String) (v : ℚ) : List (String × ℚ) :=
  match m with
  | [] => [(k, v)]
  | (k', v') :: rest => if k' = k then (k', v' + v) :: rest else (k', v') :: bumpS rest k v

/-- `getCategoryBreakdown` (lines 195-205): accumulate amounts per category
label in first-appearance order, then sort descending by amount with a
stable sort (JS `Array.prototype.sort` is stable; `insertionSort` with
`b.amount <= a.amount` keeps the original order of ties). -/
def getCategoryBreakdown (transactions : List Txn) : List (String × ℚ) :=
  let categories :=
    transactions.foldl (fun m t => bumpS m (categoryLabel t) t.amount) []
  List.insertionSort (fun a b : String × ℚ => b.2 ≤ a.2) categories

/-- The `"YYYY-MM"` key of line 283, as the integer `year * 100 + month`:
for four-digit years the lexicographic order on the padded key strings is
the integer order on these values. -/
def monthKey (d : JSDate) : ℤ := d.year * 100 + d.month

/-- The two month-keyed accumulators of lines 278-290: monthly spending and
monthly income, built in transaction order. -/
def monthlyMaps (transactions : List Txn) : List (ℤ × ℚ) × List (ℤ × ℚ) :=
  transactions.foldl
    (fun maps t =>
      if t.type == "expense" then (bump maps.1 (monthKey t.date) t.amount, maps.2)
      else if t.type == "income" then (maps.1, bump maps.2 (monthKey t.date) t.amount)
      else maps)
    ([], [])

/-- `m[k] || 0` lookup in a month-keyed accumulator. -/
def lookup0 (m : List (ℤ × ℚ)) (k : ℤ) : ℚ := (m.lookup k).getD 0

/-- The unrounded trend value of lines 292-294: months are the sorted keys
of the spending map; if more than one, `(spending of the last month minus
spending of the first month) / number of months`, else `0`. -/
def rawSpendingTrend (transactions : List Txn) : ℚ :=
  let monthlySpending := (monthlyMaps transactions).1
  let months := List.insertionSort (· ≤ ·) (monthlySpending.map Prod.fst)
  if 1 < months.length then
    (lookup0 monthlySpending ((months.getLast?).getD 0) -
      lookup0 monthlySpending ((months.head?).getD 0)) / (months.length : ℚ)
  else 0

/-- The result object of `analyzeSpendingTrends`. -/
structure TrendAnalysis where
  monthlySpending : List (ℤ × ℚ)
  monthlyIncome : List (ℤ × ℚ)
  spendingTrend : ℚ
  trendDirection : String
deriving DecidableEq

/-- `analyzeSpendingTrends` (lines 277-302): the reported `spendingTrend`
is the raw trend rounded to 2 decimals, while `trendDirection` is computed
from the unrounded value. -/
def analyzeSpendingTrends (transactions : List Txn) : TrendAnalysis :=
  let maps := monthlyMaps transactions
  let spendingTrend := rawSpendingTrend transactions
  { monthlySpending := maps.1
    monthlyIncome := maps.2
    spendingTrend := round2 spendingTrend
    trendDirection :=
      if spendingTrend > 0 then "increasing"
      else if spendingTrend < 0 then "decreasing"
      else "stable" }

/-- `calculateFinancialHealthScore` (lines 305-337): five threshold
factors, summed, divided by the fixed `maxScore = 100` and rescaled by
`Math.round`. -/
def calculateFinancialHealthScore (savingsRate monthlyNetIncome : ℚ)
    (targetAnalysis : TargetAnalysis) (budgetAnalysis : BudgetAnalysis)
    (spendingTrends : TrendAnalysis) : ℤ :=
  let savingsPts : ℚ :=
    if savingsRate ≥ 20 then 30
    else if savingsRate ≥ 10 then 20
    else if savingsRate ≥ 5 then 10
    else 0
  let netIncomePts : ℚ :=
    if monthlyNetIncome > 0 then 25
    else if monthlyNetIncome ≥ -1000 then 15
    else 0
  let targetPts : ℚ :=
    if targetAnalysis.overallProgress ≥ 80 then 20
    else if targetAnalysis.overallProgress ≥ 50 then 15
    else if targetAnalysis.overallProgress ≥ 25 then 10
    else 0
  let budgetPts : ℚ :=
    if budgetAnalysis.overBudget = 0 then 15
    else if (budgetAnalysis.overBudget : ℚ) ≤ (budgetAnalysis.totalBudgets : ℚ) * 0.3 then 10
    else 0
  let trendPts : ℚ :=
    if spendingTrends.trendDirection = "decreasing" then 10
    else if spendingTrends.trendDirection = "stable" then 5
    else 0
  let score := savingsPts + netIncomePts + targetPts + budgetPts + trendPts
  let maxScore : ℚ := 30 + 25 + 20 + 15 + 10
  jsRound (score / maxScore * 100)

/-- The `income` / `expenses` sub-reports of the final object. -/
structure TypeReport where
  total : ℚ
  monthly : ℚ
  transactions : ℕ
  categories : List (String × ℚ)
deriving DecidableEq

/-- The `investments` sub-report. -/
structure InvestmentReport where
  total : ℚ
  monthly : ℚ
  transactions : ℕ
deriving DecidableEq

/-- The `netIncome` sub-report. -/
structure NetIncomeReport where
  total : ℚ
  monthly : ℚ
deriving DecidableEq

/-- The `period` sub-report (lines 171-175). -/
structure Period where
  startDate : Option JSDate
  endDate : Option JSDate
  totalTransactions : ℕ
deriving DecidableEq

/-- The full analysis report returned by `performFinancialAnalysis`. -/
structure AnalysisReport where
  income : TypeReport
  expenses : TypeReport
  investments : InvestmentReport
  netIncome : NetIncomeReport
  savingsRate : ℚ
  targets : TargetAnalysis
  budgets : BudgetAnalysis
  trends : TrendAnalysis
  healthScore : ℤ
  period : Period
deriving DecidableEq

/-- `performFinancialAnalysis` (lines 95-177). `now` is the system-clock
reading: the code takes `new Date()` at line 96 for the current month/year
and again at line 218 (inside `analyzeTargets`) for the timestamp; both
reads are modelled as the same instant. -/
def performFinancialAnalysis (transactions : List Txn) (targets : List Target)
    (budgets : List Budget) (now : Clock) : AnalysisReport :=
  let incomeTransactions := transactions.filter (fun t => t.type == "income")
  let totalIncome := (incomeTransactions.map (·.amount)).foldl (· + ·) (0 : ℚ)
  let monthlyIncome := calculateMonthlyAverage incomeTransactions
  let expenseTransactions := transactions.filter (fun t => t.type == "expense")
  let totalExpenses := (expenseTransactions.map (·.amount)).foldl (· + ·) (0 : ℚ)
  let monthlyExpenses := calculateMonthlyAverage expenseTransactions
  let investmentTransactions := transactions.filter (fun t => t.type == "investment")
  let totalInvestments := (investmentTransactions.map (·.amount)).foldl (· + ·) (0 : ℚ)
  let monthlyInvestments := calculateMonthlyAverage investmentTransactions
  let netIncome := totalIncome - totalExpenses
  let monthlyNetIncome := monthlyIncome - monthlyExpenses
  let savingsRate :=
    if totalIncome > 0 then (totalIncome - totalExpenses) / totalIncome * 100 else 0
  let targetAnalysis := analyzeTargets targets now.ms
  let budgetAnalysis := analyzeBudgets budgets transactions now.month now.year
  let spendingTrends := analyzeSpendingTrends transactions
  let healthScore := calculateFinancialHealthScore savingsRate monthlyNetIncome
    targetAnalysis budgetAnalysis spendingTrends
  { income :=
      { total := totalIncome
        monthly := monthlyIncome
        transactions := incomeTransactions.length
        categories := getCategoryBreakdown incomeTransactions }
    expenses :=
      { total := totalExpenses
        monthly := monthlyExpenses
        transactions := expenseTransactions.length
        categories := getCategoryBreakdown expenseTransactions }
    investments :=
      { total := totalInvestments
        monthly := monthlyInvestments
        transactions := investmentTransactions.length }
    netIncome :=
      { total := netIncome
        monthly := monthlyNetIncome }
    savingsRate := round2 savingsRate
    targets := targetAnalysis
    budgets := budgetAnalysis
    trends := spendingTrends
    healthScore := healthScore
    period :=
      { startDate := (transactions.getLast?).map (·.date)
        endDate := (transactions.head?).map (·.date)
        totalTransactions := transactions.length } }

/-- A value a JS numeric accumulator can hold while summing amounts. -/
inductive JSNum where
  | num (q : ℚ)
  | nan
deriving DecidableEq

/-- A possibly malformed `amount` field value: a number, SQL `NULL`
(JS `null`), a missing property (JS `undefined`), or a stored `NaN`.
(A string amount, which JS `+` would turn into string concatenation, is
outside this model.) -/
inductive AmountVal where
  | num (q : ℚ)
  | nullv
  | undef
  | nan
deriving DecidableEq

/-- One step of the engine's summing pattern
`reduce((sum, t) => sum + t.amount, 0)` (lines 102, 107, 112, 190, 199,
255, 262) with JS coercion semantics for non-numeric amounts:
`null` coerces to `+0`, `undefined` coerces to `NaN`, and `NaN`
propagates. -/
def jsAddAmount : JSNum → AmountVal → JSNum
  | .nan, _ => .nan
  | .num s, .num q => .num (s + q)
  | .num s, .nullv => .num s
  | .num _, .undef => .nan
  | .num _, .nan => .nan

/-- The engine's amount sum over a list of possibly malformed amounts. -/
def jsSumAmounts (amounts : List AmountVal) : JSNum :=
  amounts.foldl jsAddAmount (.num 0)

/-- The numeric value of an amount field, with `null` worth 0. -/
def amtQ : AmountVal → ℚ
  | .num q => q
  | _ => 0

/-- The sum of the numeric amounts in a list, with `null` contributing 0. -/
def numericSum (amounts : List AmountVal) : ℚ :=
  (amounts.map amtQ).sum

lemma foldl_add_eq_sum (l : List ℚ) (a : ℚ) : l.foldl (· + ·) a = a + l.sum := by
  induction l generalizing a with
  | nil => simp
  | cons x xs ih => simp [ih]; ring

lemma foldl_add_f_eq_sum {α : Type} (f : α → ℚ) (l : List α) (a : ℚ) :
    l.foldl (fun s x => s + f x) a = a + (l.map f).sum := by
  induction l generalizing a with
  | nil => simp
  | cons x xs ih => simp [ih]; ring

lemma dateLeB_refl (a : JSDate) : dateLeB a a := by simp [dateLeB]

lemma dateLeB_total (a b : JSDate) : dateLeB a b ∨ dateLeB b a := by
  simp only [dateLeB, decide_eq_true_eq]
  rcases lt_trichotomy a.year b.year with h | h | h
  · exact Or.inl (Or.inl h)
  · rcases lt_trichotomy a.month b.month with h2 | h2 | h2
    · exact Or.inl (Or.inr ⟨h, Or.inl h2⟩)
    · rcases le_total a.sub b.sub with h3 | h3
      · exact Or.inl (Or.inr ⟨h, Or.inr ⟨h2, h3⟩⟩)
      · exact Or.inr (Or.inr ⟨h.symm, Or.inr ⟨h2.symm, h3⟩⟩)
    · exact Or.inr (Or.inr ⟨h.symm, Or.inl h2⟩)
  · exact Or.inr (Or.inl h)

lemma dateLeB_trans {a b c : JSDate} (h1 : dateLeB a b) (h2 : dateLeB b c) :
    dateLeB a c := by
  simp only [dateLeB, decide_eq_true_eq] at h1 h2 ⊢
  rcases h1 with h1 | ⟨e1, h1⟩
  · rcases h2 with h2 | ⟨e2, h2⟩
    · exact Or.inl (h1.trans h2)
    · exact Or.inl (e2 ▸ h1)
  · rcases h2 with h2 | ⟨e2, h2⟩
    · exact Or.inl (e1 ▸ h2)
    · refine Or.inr ⟨e1.trans e2, ?_⟩
      rcases h1 with h1 | ⟨f1, h1⟩
      · rcases h2 with h2 | ⟨f2, h2⟩
        · exact Or.inl (h1.trans h2)
        · exact Or.inl (f2 ▸ h1)
      · rcases h2 with h2 | ⟨f2, h2⟩
        · exact Or.inl (f1 ▸ h2)
        · exact Or.inr ⟨f1.trans f2, h1.trans h2⟩

lemma dateMin_cases (a b : JSDate) : dateMin a b = a ∨ dateMin a b = b := by
  unfold dateMin
  by_cases h : dateLeB b a = true <;> simp [h]

lemma dateMin_le_left (a b : JSDate) : dateLeB (dateMin a b) a := by
  unfold dateMin
  by_cases h : dateLeB b a = true <;> simp [h, dateLeB_refl]

lemma dateMin_le_right (a b : JSDate) : dateLeB (dateMin a b) b := by
  unfold dateMin
  by_cases h : dateLeB b a = true <;> simp [h, dateLeB_refl]
  rcases dateLeB_total a b with h2 | h2
  · exact h2
  · exact absurd h2 (by simpa using h)

lemma dateMax_cases (a b : JSDate) : dateMax a b = a ∨ dateMax a b = b := by
  unfold dateMax
  by_cases h : dateLeB a b = true <;> simp [h]

lemma left_le_dateMax (a b : JSDate) : dateLeB a (dateMax a b) := by
  unfold dateMax
  by_cases h : dateLeB a b = true <;> simp [h, dateLeB_refl]

lemma right_le_dateMax (a b : JSDate) : dateLeB b (dateMax a b) := by
  unfold dateMax
  by_cases h : dateLeB a b = true <;> simp [h, dateLeB_refl]
  rcases dateLeB_total b a with h2 | h2
  · exact h2
  · exact absurd h2 (by simpa using h)

lemma listMinD_mem (d : JSDate) (l : List JSDate) :
    listMinD d l = d ∨ listMinD d l ∈ l := by
  induction l generalizing d with
  | nil => exact Or.inl rfl
  | cons x xs ih =>
    simp only [listMinD, List.foldl_cons] at *
    rcases ih (dateMin d x) with h | h
    · rcases dateMin_cases d x with h2 | h2
      · exact Or.inl (h.trans h2)
      · exact Or.inr (by rw [h, h2]; exact List.mem_cons_self x xs)
    · exact Or.inr (List.mem_cons_of_mem x h)

lemma listMinD_le (d : JSDate) (l : List JSDate) :
    dateLeB (listMinD d l) d ∧ ∀ x ∈ l, dateLeB (listMinD d l) x := by
  induction l generalizing d with
  | nil => exact ⟨dateLeB_refl d, by simp⟩
  | cons y ys ih =>
    simp only [listMinD, List.foldl_cons] at *
    obtain ⟨h1, h2⟩ := ih (dateMin d y)
    refine ⟨dateLeB_trans h1 (dateMin_le_left d y), ?_⟩
    intro x hx
    rcases List.mem_cons.mp hx with rfl | hx
    · exact dateLeB_trans h1 (dateMin_le_right d x)
    · exact h2 x hx

lemma listMaxD_mem (d : JSDate) (l : List JSDate) :
    listMaxD d l = d ∨ listMaxD d l ∈ l := by
  induction l generalizing d with
  | nil => exact Or.inl rfl
  | cons x xs ih =>
    simp only [listMaxD, List.foldl_cons] at *
    rcases ih (dateMax d x) with h | h
    · rcases dateMax_cases d x with h2 | h2
      · exact Or.inl (h.trans h2)
      · exact Or.inr (by rw [h, h2]; exact List.mem_cons_self x xs)
    · exact Or.inr (List.mem_cons_of_mem x h)

lemma le_listMaxD (d : JSDate) (l : List JSDate) :
    dateLeB d (listMaxD d l) ∧ ∀ x ∈ l, dateLeB x (listMaxD d l) := by
  induction l generalizing d with
  | nil => exact ⟨dateLeB_refl d, by simp⟩
  | cons y ys ih =>
    simp only [listMaxD, List.foldl_cons] at *
    obtain ⟨h1, h2⟩ := ih (dateMax d y)
    refine ⟨dateLeB_trans (left_le_dateMax d y) h1, ?_⟩
    intro x hx
    rcases List.mem_cons.mp hx with rfl | hx
    · exact dateLeB_trans (right_le_dateMax d x) h1
    · exact h2 x hx

lemma sorted_head_min {l : List ℤ} (hs : List.Sorted (· ≤ ·) l) (h : l ≠ []) :
    ∀ k ∈ l, l.head h ≤ k := by
  cases l with
  | nil => exact absurd rfl h
  | cons a t =>
    intro k hk
    rcases List.mem_cons.mp hk with rfl | hk
    · exact le_refl _
    · exact List.rel_of_sorted_cons hs k hk

lemma sorted_le_getLast {l : List ℤ} (hs : List.Sorted (· ≤ ·) l) (h : l ≠ []) :
    ∀ k ∈ l, k ≤ l.getLast h := by
  induction l with
  | nil => exact absurd rfl h
  | cons a t ih =>
    intro k hk
    cases t with
    | nil =>
      rcases List.mem_cons.mp hk with rfl | hk
      · simp [List.getLast]
      · simp at hk
    | cons b u =>
      rw [List.getLast_cons (List.cons_ne_nil b u)]
      rcases List.mem_cons.mp hk with rfl | hk
      · exact List.rel_of_sorted_cons hs _ (List.getLast_mem (List.cons_ne_nil b u))
      · exact ih hs.of_cons (List.cons_ne_nil b u) k hk

lemma div_div_div_same (a b c : ℚ) (hc : c ≠ 0) : a / c / (b / c) = a / b := by
  have h1 : c * (b / c) = b := by field_simp
  rw [div_div, h1]

lemma jsAddAmount_nan (a : AmountVal) : jsAddAmount JSNum.nan a = JSNum.nan := by
  cases a <;> rfl

lemma jsSum_foldl_nan (l : List AmountVal) :
    l.foldl jsAddAmount JSNum.nan = JSNum.nan := by
  induction l with
  | nil => rfl
  | cons a t ih => simpa [jsAddAmount_nan] using ih

lemma jsSum_foldl_num (l : List AmountVal) (s : ℚ)
    (h : ∀ a ∈ l, a = AmountVal.nullv ∨ ∃ q, a = AmountVal.num q) :
    l.foldl jsAddAmount (JSNum.num s) = JSNum.num (s + (l.map amtQ).sum) := by
  induction l generalizing s with
  | nil => simp
  | cons a t ih =>
    rcases h a (List.mem_cons_self a t) with rfl | ⟨q, rfl⟩
    · simp only [List.foldl_cons, jsAddAmount]
      rw [ih s (fun x hx => h x (List.mem_cons_of_mem _ hx))]
      simp [amtQ]
    · simp only [List.foldl_cons, jsAddAmount]
      rw [ih (s + q) (fun x hx => h x (List.mem_cons_of_mem _ hx))]
      simp [amtQ, add_assoc]

lemma jsSum_foldl_poison (l : List AmountVal) (s : ℚ)
    (h : AmountVal.undef ∈ l ∨ AmountVal.nan ∈ l) :
    l.foldl jsAddAmount (JSNum.num s) = JSNum.nan := by
  induction l generalizing s with
  | nil => simp at h
  | cons a t ih =>
    cases a with
    | num q =>
      have h' : AmountVal.undef ∈ t ∨ AmountVal.nan ∈ t := by
        rcases h with h | h
        · exact Or.inl (by simpa using h)
        · exact Or.inr (by simpa using h)
      simp only [List.foldl_cons, jsAddAmount]
      exact ih (s + q) h'
    | nullv =>
      have h' : AmountVal.undef ∈ t ∨ AmountVal.nan ∈ t := by
        rcases h with h | h
        · exact Or.inl (by simpa using h)
        · exact Or.inr (by simpa using h)
      simp only [List.foldl_cons, jsAddAmount]
      exact ih s h'
    | undef =>
      simp only [List.foldl_cons, jsAddAmount]
      exact jsSum_foldl_nan t
    | nan =>
      simp only [List.foldl_cons, jsAddAmount]
      exact jsSum_foldl_nan t

/-- C1 counterexample. The claim says a completed target, or one without a
`targetDate`, is never counted among `onTrackTargets`, and that
`behindTargets` is never negative.  On the code, a single completed target
(amount 100, current 100, created at the epoch, due 10 days later, clock 5
days in) is counted both completed and on-track, so `behindTargets` is
`1 - 1 - 1 = -1 < 0`; and a target with no `targetDate` and 1% progress is
also counted on-track (its expected progress is negative). -/
theorem analyzeTargets_counterexample :
    (analyzeTargets [⟨100, some 100, some 864000000, 0⟩] 432000000).completedTargets = 1 ∧
    (analyzeTargets [⟨100, some 100, some 864000000, 0⟩] 432000000).onTrackTargets = 1 ∧
    (analyzeTargets [⟨100, some 100, some 864000000, 0⟩] 432000000).behindTargets < 0 ∧
    (analyzeTargets [⟨100, some 1, none, 86400000⟩] 432000000).onTrackTargets = 1 := by
  refine ⟨?_, ?_, ?_, ?_⟩ <;>
    norm_num [analyzeTargets, onTrackPred, Target.currentAmt, msPerDay,
      List.filter_cons, round2, jsRound]

/-- C1, amended: `onTrackTargets` counts every target — completed or not,
and with a missing `targetDate` treated as the epoch — whose
`currentAmount / targetAmount` is at least `0.8` times
`min(daysPassed / totalDays, 1)` (days measured from `createdAt`), and
`behindTargets` is the subtraction
`totalTargets - completedTargets - onTrackTargets`, which can be
negative. -/
theorem analyzeTargets_onTrack_amended (targets : List Target) (now : ℚ) :
    (analyzeTargets targets now).onTrackTargets =
      targets.countP (fun t => decide (t.currentAmt / t.target_amount ≥
        min ((now - t.created_at) / (t.target_date.getD 0 - t.created_at)) 1 * 0.8)) ∧
    (analyzeTargets targets now).behindTargets =
      ((analyzeTargets targets now).totalTargets : ℤ) -
        ((analyzeTargets targets now).completedTargets : ℤ) -
        ((analyzeTargets targets now).onTrackTargets : ℤ) := by
  constructor
  · rw [List.countP_eq_length_filter]
    show (targets.filter (onTrackPred now)).length = _
    congr 2
    funext t
    simp only [onTrackPred]
    rw [div_div_div_same (now - t.created_at) (t.target_date.getD 0 - t.created_at)
      msPerDay (by norm_num [msPerDay])]
  · rfl

/-- C2 counterexample. The claim says the zero-valued result for a
month/year with no budgets includes a `budgetUtilization` of 0 and never
an absent field; on the code the early return omits the field entirely
(it is `undefined`, modelled as `none`). -/
theorem budgetUtilization_absent_counterexample :
    (analyzeBudgets [⟨"Rent", 100, 1, 2024⟩] [] 2 2024).budgetUtilization = none ∧
    (analyzeBudgets [⟨"Rent", 100, 1, 2024⟩] [] 2 2024).budgetUtilization ≠ some 0 := by
  constructor <;> decide

/-- C2, amended: when no budget matches the requested month/year the call
does not fail and every field that is present is zero, but the
`budgetUtilization` field is absent (`undefined`) rather than 0. -/
theorem analyzeBudgets_zero_amended (budgets : List Budget) (transactions : List Txn)
    (m y : ℤ) (h : ∀ b ∈ budgets, ¬(b.month = m ∧ b.year = y)) :
    analyzeBudgets budgets transactions m y =
      { totalBudgets := 0, totalBudgetAmount := 0, totalSpent := 0,
        overBudget := 0, underBudget := 0, budgetUtilization := none } := by
  have hf : budgets.filter (fun b => b.month == m && b.year == y) = [] := by
    rw [List.filter_eq_nil_iff]
    intro b hb
    simpa using h b hb
  unfold analyzeBudgets
  rw [hf]
  rfl

/-- Witness for the amended C2 theorem at a concrete non-matching input. -/
theorem analyzeBudgets_zero_witness :
    analyzeBudgets [⟨"Rent", 100, 1, 2024⟩] [] 2 2024 =
      { totalBudgets := 0, totalBudgetAmount := 0, totalSpent := 0,
        overBudget := 0, underBudget := 0, budgetUtilization := none } :=
  analyzeBudgets_zero_amended _ _ _ _ (by decide)

/-- C5 counterexample. The claim says every non-numeric amount contributes
0 to every sum; on the code an `undefined` amount coerces to `NaN` and
poisons the whole sum instead of contributing 0. -/
theorem malformedAmounts_counterexample :
    jsSumAmounts [AmountVal.undef] = JSNum.nan ∧ JSNum.nan ≠ JSNum.num 0 := by
  constructor
  · rfl
  · decide

/-- C5, amended: the engine's `reduce((sum, t) => sum + t.amount, 0)`
pattern never throws; a `null` amount contributes 0 to the sum, but an
`undefined` or `NaN` amount does not contribute 0 — it makes the whole
sum `NaN`. -/
theorem malformedAmounts_amended (l : List AmountVal) :
    ((∀ a ∈ l, a = AmountVal.nullv ∨ ∃ q, a = AmountVal.num q) →
      jsSumAmounts l = JSNum.num (numericSum l)) ∧
    ((AmountVal.undef ∈ l ∨ AmountVal.nan ∈ l) → jsSumAmounts l = JSNum.nan) := by
  constructor
  · intro h
    unfold jsSumAmounts numericSum
    rw [jsSum_foldl_num l 0 h, zero_add]
  · intro h
    exact jsSum_foldl_poison l 0 h

/-- Witness for the amended C5 theorem: a `null` amount next to a numeric
one sums to the numeric value, and an `undefined` amount poisons the sum. -/
theorem malformedAmounts_witness :
    jsSumAmounts [AmountVal.nullv, AmountVal.num 3] =
      JSNum.num (numericSum [AmountVal.nullv, AmountVal.num 3]) ∧
    jsSumAmounts [AmountVal.num 3, AmountVal.undef] = JSNum.nan := by
  constructor
  · exact (malformedAmounts_amended _).1 (by
      intro a ha
      rcases List.mem_cons.mp ha with rfl | ha2
      · exact Or.inl rfl
      · rcases List.mem_cons.mp ha2 with rfl | h3
        · exact Or.inr ⟨3, rfl⟩
        · simp at h3)
  · exact (malformedAmounts_amended _).2 (Or.inl (by simp))

/-- C9 counterexample. The claim says the engine has no dependence on the
system clock because `now` is injected; on the code `new Date()` is read
inside the engine, and the same collections analysed under two different
clock readings (January vs February 2024, with a January-2024 budget)
produce different reports. -/
theorem engine_clock_counterexample :
    performFinancialAnalysis [] [] [⟨"A", 100, 1, 2024⟩] ⟨1, 2024, 0⟩ ≠
      performFinancialAnalysis [] [] [⟨"A", 100, 1, 2024⟩] ⟨2, 2024, 0⟩ := by
  intro h
  have h2 := congrArg (fun r => r.budgets.totalBudgets) h
  norm_num [performFinancialAnalysis, analyzeBudgets, List.filter_cons] at h2

/-- C9, amended: the engine is a deterministic function of its input
collections and of the system-clock reading taken during the call (the
`new Date()` at lines 96 and 218): two invocations with identical
collections and an identical clock reading produce identical reports —
but the clock is read inside the engine, not injected, so invocations at
different times can differ. -/
theorem engine_deterministic_amended (transactions : List Txn) (targets : List Target)
    (budgets : List Budget) (c c' : Clock) (hm : c.month = c'.month)
    (hy : c.year = c'.year) (hms : c.ms = c'.ms) :
    performFinancialAnalysis transactions targets budgets c =
      performFinancialAnalysis transactions targets budgets c' := by
  obtain ⟨m, y, s⟩ := c
  obtain ⟨m', y', s'⟩ := c'
  cases hm
  cases hy
  cases hms
  rfl

/-- Witness for the amended C9 theorem at a concrete clock reading. -/
theorem engine_deterministic_witness :
    performFinancialAnalysis [] [] [] ⟨1, 2024, 0⟩ =
      performFinancialAnalysis [] [] [] ⟨1, 2024, 0⟩ :=
  engine_deterministic_amended [] [] [] ⟨1, 2024, 0⟩ ⟨1, 2024, 0⟩ rfl rfl rfl

/-- C3, confirmed: for any input holding exactly one income transaction of
amount 1000 (any date, category and clock reading), no targets and no
budgets, the report has `totalIncome = 1000`, `totalExpenses = 0`,
`netIncome = 1000`, `savingsRate = 100`, and
`healthScore = 30 + 25 + 0 + 15 + 5 = 75`. -/
theorem scenarioA_report (d : JSDate) (cat : Option String) (c : Clock) :
    (performFinancialAnalysis [⟨d, 1000, "income", cat⟩] [] [] c).income.total = 1000 ∧
    (performFinancialAnalysis [⟨d, 1000, "income", cat⟩] [] [] c).expenses.total = 0 ∧
    (performFinancialAnalysis [⟨d, 1000, "income", cat⟩] [] [] c).netIncome.total = 1000 ∧
    (performFinancialAnalysis [⟨d, 1000, "income", cat⟩] [] [] c).savingsRate = 100 ∧
    (performFinancialAnalysis [⟨d, 1000, "income", cat⟩] [] [] c).healthScore = 75 := by
  refine ⟨?_, ?_, ?_, ?_, ?_⟩ <;>
    norm_num [performFinancialAnalysis, calculateMonthlyAverage, analyzeTargets, analyzeBudgets,
      analyzeSpendingTrends, rawSpendingTrend, monthlyMaps, calculateFinancialHealthScore,
      listMinD, listMaxD, round2, jsRound, List.filter_cons, bump, monthKey,
      show (("income" : String) = "expense") = False from by simp,
      show (("stable" : String) = "decreasing") = False from by simp,
      Int.floor_eq_iff]

/-- C4 counterexample. The claim says the health score for fully empty
input collections is exactly 5 (only the stable trend contributing); on
the code an empty input scores 35: a zero monthly net income takes the
`>= -1000` branch worth 15, zero over-budget budgets earn 15, and the
stable trend earns 5. -/
theorem healthScore_empty_counterexample :
    (performFinancialAnalysis [] [] [] ⟨1, 2024, 0⟩).healthScore = 35 ∧ (35 : ℤ) ≠ 5 := by
  constructor
  · norm_num [performFinancialAnalysis, calculateMonthlyAverage, analyzeTargets, analyzeBudgets,
      analyzeSpendingTrends, rawSpendingTrend, monthlyMaps, calculateFinancialHealthScore,
      round2, jsRound,
      show (("stable" : String) = "decreasing") = False from by simp,
      Int.floor_eq_iff]
  · decide

/-- C4, amended: the health score is an integer in `[0, 100]` for every
input, and for fully empty input collections it is exactly 35
(15 net-income points since 0 ≥ −1000, 15 budget points since nothing is
over budget, 5 stable-trend points). -/
theorem healthScore_range_amended :
    (∀ (sr ni : ℚ) (ta : TargetAnalysis) (ba : BudgetAnalysis) (tr : TrendAnalysis),
      0 ≤ calculateFinancialHealthScore sr ni ta ba tr ∧
        calculateFinancialHealthScore sr ni ta ba tr ≤ 100) ∧
    (∀ c : Clock, (performFinancialAnalysis [] [] [] c).healthScore = 35) := by
  constructor
  · intro sr ni ta ba tr
    have hb : ∀ x : ℚ, 0 ≤ x → x ≤ 100 →
        0 ≤ jsRound (x / (30 + 25 + 20 + 15 + 10) * 100) ∧
          jsRound (x / (30 + 25 + 20 + 15 + 10) * 100) ≤ 100 := by
      intro x hx0 hx1
      have he : x / (30 + 25 + 20 + 15 + 10) * 100 = x := by ring
      rw [he]
      unfold jsRound
      refine ⟨Int.le_floor.mpr (by push_cast; linarith), ?_⟩
      have h2 : ⌊x + 1 / 2⌋ < 101 := Int.floor_lt.mpr (by push_cast; linarith)
      omega
    have b1 : 0 ≤ (if sr ≥ 20 then (30:ℚ) else if sr ≥ 10 then 20 else if sr ≥ 5 then 10 else 0) ∧
        (if sr ≥ 20 then (30:ℚ) else if sr ≥ 10 then 20 else if sr ≥ 5 then 10 else 0) ≤ 30 := by
      constructor <;> split_ifs <;> norm_num
    have b2 : 0 ≤ (if ni > 0 then (25:ℚ) else if ni ≥ -1000 then 15 else 0) ∧
        (if ni > 0 then (25:ℚ) else if ni ≥ -1000 then 15 else 0) ≤ 25 := by
      constructor <;> split_ifs <;> norm_num
    have b3 : 0 ≤ (if ta.overallProgress ≥ 80 then (20:ℚ) else if ta.overallProgress ≥ 50 then 15
          else if ta.overallProgress ≥ 25 then 10 else 0) ∧
        (if ta.overallProgress ≥ 80 then (20:ℚ) else if ta.overallProgress ≥ 50 then 15
          else if ta.overallProgress ≥ 25 then 10 else 0) ≤ 20 := by
      constructor <;> split_ifs <;> norm_num
    have b4 : 0 ≤ (if ba.overBudget = 0 then (15:ℚ)
          else if (ba.overBudget : ℚ) ≤ (ba.totalBudgets : ℚ) * 0.3 then 10 else 0) ∧
        (if ba.overBudget = 0 then (15:ℚ)
          else if (ba.overBudget : ℚ) ≤ (ba.totalBudgets : ℚ) * 0.3 then 10 else 0) ≤ 15 := by
      constructor <;> split_ifs <;> norm_num
    have b5 : 0 ≤ (if tr.trendDirection = "decreasing" then (10:ℚ)
          else if tr.trendDirection = "stable" then 5 else 0) ∧
        (if tr.trendDirection = "decreasing" then (10:ℚ)
          else if tr.trendDirection = "stable" then 5 else 0) ≤ 10 := by
      constructor <;> split_ifs <;> norm_num
    simp only [calculateFinancialHealthScore]
    exact hb _ (by linarith [b1.1, b2.1, b3.1, b4.1, b5.1])
      (by linarith [b1.2, b2.2, b3.2, b4.2, b5.2])
  · intro c
    norm_num [performFinancialAnalysis, calculateMonthlyAverage, analyzeTargets, analyzeBudgets,
      analyzeSpendingTrends, rawSpendingTrend, monthlyMaps, calculateFinancialHealthScore,
      round2, jsRound,
      show (("stable" : String) = "decreasing") = False from by simp,
      Int.floor_eq_iff]

/-- The spec's wording of a category's actual expense spend: the summed
amounts of the expense transactions whose category equals the budget's
category name by exact string equality. -/
def expenseSpendSpec (transactions : List Txn) (name : String) : ℚ :=
  ((transactions.filter
      (fun t => decide (t.category = some name ∧ t.type = "expense"))).map (·.amount)).sum

lemma categorySpent_eq_spec (transactions : List Txn) (name : String) :
    categorySpent transactions name = expenseSpendSpec transactions name := by
  unfold categorySpent expenseSpendSpec
  rw [foldl_add_eq_sum, zero_add]
  have hpq : (fun t : Txn => t.category == some name && t.type == "expense")
      = (fun t => decide (t.category = some name ∧ t.type = "expense")) := by
    funext t
    by_cases h1 : t.category = some name <;> by_cases h2 : t.type = "expense" <;> simp [h1, h2]
  rw [hpq]

lemma foldl_min_spent (transactions : List Txn) (L : List Budget) (a : ℚ) :
    L.foldl (fun sum b => sum + min (categorySpent transactions b.category_name) b.amount) a
      = a + (L.map (fun b => min (categorySpent transactions b.category_name) b.amount)).sum := by
  induction L generalizing a with
  | nil => simp
  | cons x xs ih => simp [ih]; ring

/-- C6, confirmed: each current-month budget contributes
`min(actual expense spend, budget amount)` to `totalSpent`, and a budget
is counted over-budget exactly when its uncapped actual expense spend
(matched by exact category-name string equality) strictly exceeds its
amount. -/
theorem budgetSpent_capped (budgets : List Budget) (transactions : List Txn) (m y : ℤ) :
    (analyzeBudgets budgets transactions m y).totalSpent =
      ((budgets.filter (fun b => decide (b.month = m ∧ b.year = y))).map
        (fun b => min (expenseSpendSpec transactions b.category_name) b.amount)).sum ∧
    (analyzeBudgets budgets transactions m y).overBudget =
      (budgets.filter (fun b => decide (b.month = m ∧ b.year = y))).countP
        (fun b => decide (expenseSpendSpec transactions b.category_name > b.amount)) := by
  have hpq : (fun b : Budget => b.month == m && b.year == y)
      = (fun b => decide (b.month = m ∧ b.year = y)) := by
    funext b
    by_cases h1 : b.month = m <;> by_cases h2 : b.year = y <;> simp [h1, h2]
  simp only [analyzeBudgets, hpq]
  by_cases hlen : (budgets.filter (fun b => decide (b.month = m ∧ b.year = y))).length = 0
  · rw [if_pos hlen]
    have hnil := List.length_eq_zero.mp hlen
    rw [hnil]
    simp
  · rw [if_neg hlen]
    constructor
    · rw [foldl_min_spent, zero_add]
      simp only [categorySpent_eq_spec]
    · rw [List.countP_eq_length_filter]
      simp only [categorySpent_eq_spec]

/-- A concrete January-2024 expense of 500 in category Food. -/
def foodJan : Txn := ⟨⟨2024, 1, 0⟩, 500, "expense", some "Food"⟩

/-- A concrete February-2024 expense of 800 in category Food. -/
def foodFeb : Txn := ⟨⟨2024, 2, 0⟩, 800, "expense", some "Food"⟩

/-- A concrete March-2024 expense of 100 in category Food. -/
def foodMar : Txn := ⟨⟨2024, 3, 0⟩, 100, "expense", some "Food"⟩

/-- C7, confirmed: the unrounded trend value is 0 with fewer than two
distinct spending months, and otherwise equals (spending of the largest
month key minus spending of the smallest month key) divided by the number
of distinct spending months; the reported `spendingTrend` is its 2-decimal
rounding, and `trendDirection` is derived from the unrounded value's
sign. -/
theorem spendingTrend_spec (transactions : List Txn) :
    (((monthlyMaps transactions).1.map Prod.fst).length ≤ 1 →
      rawSpendingTrend transactions = 0) ∧
    (2 ≤ ((monthlyMaps transactions).1.map Prod.fst).length →
      ∃ kf kl : ℤ, kf ∈ (monthlyMaps transactions).1.map Prod.fst ∧
        kl ∈ (monthlyMaps transactions).1.map Prod.fst ∧
        (∀ k ∈ (monthlyMaps transactions).1.map Prod.fst, kf ≤ k ∧ k ≤ kl) ∧
        rawSpendingTrend transactions =
          (lookup0 (monthlyMaps transactions).1 kl -
            lookup0 (monthlyMaps transactions).1 kf) /
            ((((monthlyMaps transactions).1.map Prod.fst).length : ℕ) : ℚ)) ∧
    ((analyzeSpendingTrends transactions).spendingTrend =
      round2 (rawSpendingTrend transactions)) ∧
    ((analyzeSpendingTrends transactions).trendDirection =
      if rawSpendingTrend transactions > 0 then "increasing"
      else if rawSpendingTrend transactions < 0 then "decreasing" else "stable") := by
  have hperm : List.Perm
      (List.insertionSort (· ≤ ·) ((monthlyMaps transactions).1.map Prod.fst))
      ((monthlyMaps transactions).1.map Prod.fst) :=
    List.perm_insertionSort _ _
  have hlen := hperm.length_eq
  refine ⟨?_, ?_, rfl, rfl⟩
  · intro h1
    simp only [rawSpendingTrend]
    rw [if_neg (by omega)]
  · intro h2
    have hne : List.insertionSort (· ≤ ·) ((monthlyMaps transactions).1.map Prod.fst) ≠ [] := by
      have hpos : 0 < (List.insertionSort (· ≤ ·)
          ((monthlyMaps transactions).1.map Prod.fst)).length := by omega
      exact List.length_pos.mp hpos
    have hsort : List.Sorted (· ≤ ·)
        (List.insertionSort (· ≤ ·) ((monthlyMaps transactions).1.map Prod.fst)) :=
      List.sorted_insertionSort _ _
    refine ⟨(List.insertionSort (· ≤ ·) ((monthlyMaps transactions).1.map Prod.fst)).head hne,
      (List.insertionSort (· ≤ ·) ((monthlyMaps transactions).1.map Prod.fst)).getLast hne,
      hperm.subset (List.head_mem hne), hperm.subset (List.getLast_mem hne), ?_, ?_⟩
    · intro k hk
      exact ⟨sorted_head_min hsort hne k (hperm.mem_iff.mpr hk),
        sorted_le_getLast hsort hne k (hperm.mem_iff.mpr hk)⟩
    · simp only [rawSpendingTrend]
      rw [if_pos (by omega)]
      rw [List.getLast?_eq_getLast _ hne, List.head?_eq_head hne]
      simp only [Option.getD_some]
      rw [hlen]

/-- Witness for the C7 theorem: a single March expense has trend 0, and
the Scenario-B two-month history admits extreme months realising the
trend formula. -/
theorem spendingTrend_spec_witness :
    rawSpendingTrend [foodMar] = 0 ∧
    (∃ kf kl : ℤ, kf ∈ (monthlyMaps [foodJan, foodFeb]).1.map Prod.fst ∧
      kl ∈ (monthlyMaps [foodJan, foodFeb]).1.map Prod.fst ∧
      (∀ k ∈ (monthlyMaps [foodJan, foodFeb]).1.map Prod.fst, kf ≤ k ∧ k ≤ kl) ∧
      rawSpendingTrend [foodJan, foodFeb] =
        (lookup0 (monthlyMaps [foodJan, foodFeb]).1 kl -
          lookup0 (monthlyMaps [foodJan, foodFeb]).1 kf) /
          ((((monthlyMaps [foodJan, foodFeb]).1.map Prod.fst).length : ℕ) : ℚ)) :=
  ⟨(spendingTrend_spec [foodMar]).1 (by decide),
   (spendingTrend_spec [foodJan, foodFeb]).2.1 (by decide)⟩

/-- C8, confirmed: the monthly average of an empty list is 0 with no
division, and of a nonempty list is the summed amount divided by the
inclusive count of calendar months spanned between the chronologically
earliest and latest transaction dates. -/
theorem monthlyAverage_spec (transactions : List Txn) :
    (transactions = [] → calculateMonthlyAverage transactions = 0) ∧
    (∀ _ : transactions ≠ [],
      ∃ earliest latest : JSDate,
        earliest ∈ transactions.map (·.date) ∧ latest ∈ transactions.map (·.date) ∧
        (∀ d ∈ transactions.map (·.date), dateLeB earliest d ∧ dateLeB d latest) ∧
        calculateMonthlyAverage transactions =
          (transactions.map (·.amount)).sum /
            (((latest.year - earliest.year) * 12 + (latest.month - earliest.month) + 1 : ℤ) : ℚ)) := by
  constructor
  · intro h
    rw [h]
    rfl
  · intro h
    cases transactions with
    | nil => exact absurd rfl h
    | cons t ts =>
      refine ⟨listMinD t.date (ts.map (·.date)), listMaxD t.date (ts.map (·.date)),
        ?_, ?_, ?_, ?_⟩
      · rcases listMinD_mem t.date (ts.map (·.date)) with h1 | h1
        · rw [List.map_cons, h1]
          exact List.mem_cons_self _ _
        · rw [List.map_cons]
          exact List.mem_cons_of_mem _ h1
      · rcases listMaxD_mem t.date (ts.map (·.date)) with h1 | h1
        · rw [List.map_cons, h1]
          exact List.mem_cons_self _ _
        · rw [List.map_cons]
          exact List.mem_cons_of_mem _ h1
      · intro dd hdd
        rw [List.map_cons] at hdd
        obtain ⟨hmin1, hmin2⟩ := listMinD_le t.date (ts.map (·.date))
        obtain ⟨hmax1, hmax2⟩ := le_listMaxD t.date (ts.map (·.date))
        rcases List.mem_cons.mp hdd with rfl | hdd
        · exact ⟨hmin1, hmax1⟩
        · exact ⟨hmin2 _ hdd, hmax2 _ hdd⟩
      · simp only [calculateMonthlyAverage]
        rw [foldl_add_eq_sum, zero_add]

/-- Witness for the C8 theorem at the empty list and a singleton list. -/
theorem monthlyAverage_spec_witness :
    calculateMonthlyAverage ([] : List Txn) = 0 ∧
    (∃ earliest latest : JSDate,
      earliest ∈ [foodJan].map (·.date) ∧ latest ∈ [foodJan].map (·.date) ∧
      (∀ d ∈ [foodJan].map (·.date), dateLeB earliest d ∧ dateLeB d latest) ∧
      calculateMonthlyAverage [foodJan] =
        ([foodJan].map (·.amount)).sum /
          (((latest.year - earliest.year) * 12 + (latest.month - earliest.month) + 1 : ℤ) : ℚ)) :=
  ⟨(monthlyAverage_spec []).1 rfl,
   (monthlyAverage_spec [foodJan]).2 (List.cons_ne_nil _ _)⟩

lemma descSorted_getLast_min : ∀ (tx : List Txn) (h : tx ≠ []),
    List.Sorted (fun a b : Txn => dateLeB b.date a.date = true) tx →
    ∀ t ∈ tx, dateLeB ((tx.getLast h).date) t.date := by
  intro tx
  induction tx with
  | nil => intro h; exact absurd rfl h
  | cons a u ih =>
    intro h hs t ht
    cases u with
    | nil =>
      rcases List.mem_cons.mp ht with rfl | h2
      · simp [List.getLast, dateLeB_refl]
      · simp at h2
    | cons b v =>
      rw [List.getLast_cons (List.cons_ne_nil b v)]
      rcases List.mem_cons.mp ht with rfl | h2
      · exact List.rel_of_sorted_cons hs _ (List.getLast_mem (List.cons_ne_nil b v))
      · exact ih (List.cons_ne_nil b v) hs.of_cons t h2

lemma descSorted_head_max (tx : List Txn) (h : tx ≠ [])
    (hs : List.Sorted (fun a b : Txn => dateLeB b.date a.date = true) tx) :
    ∀ t ∈ tx, dateLeB t.date ((tx.head h).date) := by
  cases tx with
  | nil => exact absurd rfl h
  | cons a u =>
    intro t ht
    rcases List.mem_cons.mp ht with rfl | h2
    · simp [dateLeB_refl]
    · exact List.rel_of_sorted_cons hs t h2

/-- C10, confirmed: `period.startDate` is the date of the input array's
last element and `period.endDate` the date of its first element (`none`
for an empty array); when the array is sorted descending by date these
are the chronological earliest and latest dates, but not for every
ordering — on an ascending two-element list the `startDate` is the later
date. -/
theorem period_endpoints (transactions : List Txn) (targets : List Target)
    (budgets : List Budget) (c : Clock) :
    ((performFinancialAnalysis transactions targets budgets c).period.startDate =
      (transactions.getLast?).map (·.date)) ∧
    ((performFinancialAnalysis transactions targets budgets c).period.endDate =
      (transactions.head?).map (·.date)) ∧
    (∀ h : transactions ≠ [],
      List.Sorted (fun a b : Txn => dateLeB b.date a.date = true) transactions →
      (∀ t ∈ transactions, dateLeB ((transactions.getLast h).date) t.date) ∧
      (∀ t ∈ transactions, dateLeB t.date ((transactions.head h).date))) ∧
    ((performFinancialAnalysis [foodJan, foodFeb] [] [] c).period.startDate =
        some foodFeb.date ∧
      dateLeB foodFeb.date foodJan.date = false) := by
  refine ⟨rfl, rfl, ?_, rfl, by decide⟩
  intro h hs
  exact ⟨descSorted_getLast_min transactions h hs, descSorted_head_max transactions h hs⟩

/-- Witness for the C10 theorem on a concrete descending-sorted list. -/
theorem period_endpoints_witness :
    (∀ t ∈ [foodFeb, foodJan],
      dateLeB (([foodFeb, foodJan].getLast (List.cons_ne_nil _ _)).date) t.date) ∧
    (∀ t ∈ [foodFeb, foodJan],
      dateLeB t.date (([foodFeb, foodJan].head (List.cons_ne_nil _ _)).date)) :=
  (period_endpoints [foodFeb, foodJan] [] [] ⟨1, 2024, 0⟩).2.2.1 (List.cons_ne_nil _ _)
    (by
      refine List.sorted_cons.mpr ⟨?_, List.sorted_singleton _⟩
      intro b hb
      rcases List.mem_cons.mp hb with rfl | hb
      · decide
      · simp at hb)

end FintechAdvisor
